import Mathlib

/-!
Shallow embedding of `src/python/strategy/strategy_param.py`: a shopping
order with interchangeable discount strategies (function-based strategy
pattern).  Python numbers are modelled by rationals, Python lists by Lean
lists.  The dynamic instance-attribute dictionary that `Order.total`
manipulates via hasattr/setattr is modelled explicitly as an association
list from attribute names to rationals, because the memoization claims
depend on the exact attribute names: inside the class body the assignment
`self.__total = ...` is name-mangled by Python to the attribute
`_Order__total`, while the string passed to `hasattr(self, ...)` is the
literal, unmangled `__total`.
-/

/-- Embeds `Customer = namedtuple(...)` with fields name and fidelity (line 33). -/
structure Customer where
  name : String
  fidelity : ℤ
deriving DecidableEq, Repr

/-- Embeds `class LineItem` (lines 36-44): product identifier, quantity, unit price. -/
structure LineItem where
  product : String
  quantity : ℚ
  price : ℚ
deriving DecidableEq, Repr

/-- Embeds `LineItem.total` (lines 43-44): `return self.price * self.quantity`. -/
def LineItem.total (it : LineItem) : ℚ :=
  it.price * it.quantity

/-- The defunctionalized promotion strategies: the three factory functions of
the module (lines 71-95), each applied to a percentage.  Storing a Lean
function `Order -> discount` inside `Order` would be a negative occurrence,
so the stored promotion is this data and application goes through
`applyPromo` below. -/
inductive Promo where
  | fidelity (percent : ℚ)
  | bulkItem (percent : ℚ)
  | largeOrder (percent : ℚ)
deriving DecidableEq, Repr

/-- Embeds `class Order` (lines 47-68).  The field `attrs` models the instance
attributes created dynamically after `__init__` (only `Order.total` creates
one); `__init__` leaves it empty.  `cart` holds the copy `list(cart)` made
on line 51, by value.  The promotion slot is parametric in `P` so that
`due` can be stated for an arbitrary stored strategy. -/
structure Order (P : Type) where
  customer : Customer
  cart : List LineItem
  promotion : Option P
  attrs : List (String × ℚ)
deriving DecidableEq, Repr

/-- Abbreviates the sum `sum(item.total() for item in self.cart)` of line 56. -/
def cartSum (cart : List LineItem) : ℚ :=
  (cart.map LineItem.total).sum

/-- Embeds `Order.total` (lines 54-57) as a state transformer.  The guard
`hasattr(self, "__total")` looks up the literal name `__total`; the
assignment `self.__total = ...` writes the mangled name `_Order__total`;
the final `return self.__total` reads the mangled name `_Order__total`.
Reading an absent attribute raises `AttributeError`, modelled by `none`.
The `Bool` component records whether the sum of line 56 was recomputed
during this call. -/
def Order.totalCall {P : Type} (o : Order P) : Option (ℚ × Order P × Bool) :=
  if (o.attrs.lookup "__total").isSome then
    (o.attrs.lookup "_Order__total").map (fun v => (v, o, false))
  else
    let v := cartSum o.cart
    let o' : Order P := { o with attrs := ("_Order__total", v) :: o.attrs }
    (o'.attrs.lookup "_Order__total").map (fun w => (w, o', true))

/-- Embeds the discounter returned by `fidelity_promo(percent)` (lines 71-74):
`order.total() * percent/100.0 if order.customer.fidelity >= 1000 else 0`.
`order.total()` is only evaluated when the condition holds. -/
def fidelityDiscounter {P : Type} (percent : ℚ) (o : Order P) :
    Option (ℚ × Order P) :=
  if 1000 ≤ o.customer.fidelity then
    o.totalCall.map (fun x => (x.1 * percent / 100, x.2.1))
  else
    some (0, o)

/-- Embeds the discounter returned by `bulk_item_promo(percent)` (lines 77-85): a loop over the
cart accumulating `item.total() * percent/100.0` for items with
`quantity >= 20`. -/
def bulkItemDiscounter {P : Type} (percent : ℚ) (o : Order P) :
    Option (ℚ × Order P) :=
  some (o.cart.foldl
    (fun d it => if 20 ≤ it.quantity then d + it.total * percent / 100 else d)
    0, o)

/-- Embeds the discounter returned by `large_order_promo(percent)` (lines 88-95):
`distinct_items = set of item.product`; if at least 10 distinct products,
`order.total() * percent / 100.0`, else 0.  The cardinality of the Python
set is the length of the deduplicated list of product identifiers. -/
def largeOrderDiscounter {P : Type} (percent : ℚ) (o : Order P) :
    Option (ℚ × Order P) :=
  if 10 ≤ (o.cart.map LineItem.product).dedup.length then
    o.totalCall.map (fun x => (x.1 * percent / 100, x.2.1))
  else
    some (0, o)

/-- Dispatch of a stored `Promo` to its discounter: this is
`self.promotion(self)` of line 63 for the three strategies the module
defines. -/
def applyPromo (pr : Promo) (o : Order Promo) : Option (ℚ × Order Promo) :=
  match pr with
  | .fidelity p => fidelityDiscounter p o
  | .bulkItem p => bulkItemDiscounter p o
  | .largeOrder p => largeOrderDiscounter p o

/-- Embeds `Order.due` (lines 59-64): `discount = 0` when `promotion is None`, else
`discount = self.promotion(self)`; in both cases
`return self.total() - discount`, with the total computed on the state the
promotion call left behind. -/
def Order.due {P : Type} (interp : P → Order P → Option (ℚ × Order P))
    (o : Order P) : Option (ℚ × Order P) :=
  match o.promotion with
  | none => o.totalCall.map (fun x => (x.1 - 0, x.2.1))
  | some pr => do
    let (d, o₁) ← interp pr o
    let (t, o₂, _) ← o₁.totalCall
    pure (t - d, o₂)

/-- An order fresh from `__init__` (lines 49-52) has no dynamically created
attributes; in particular neither `__total` nor `_Order__total` is present.
`goodAttrs` is the part of that invariant the guard consults, and it
is preserved by every operation (the only attribute ever written is
`_Order__total`). -/
abbrev goodAttrs {P : Type} (o : Order P) : Prop :=
  o.attrs.lookup "__total" = none

/-- Embeds `Order(customer, cart, promotion)` (lines 49-52), cart already copied. -/
def Order.init {P : Type} (customer : Customer) (cart : List LineItem)
    (promotion : Option P) : Order P :=
  { customer := customer, cart := cart, promotion := promotion, attrs := [] }

/-! ### Derived characterizations and helper lemmas -/

/-- The state `Order.total` leaves behind when the sum is recomputed: the
attribute written on line 56 is the mangled name `_Order__total`. -/
def Order.withTotal {P : Type} (o : Order P) : Order P :=
  { o with attrs := ("_Order__total", cartSum o.cart) :: o.attrs }

/-- The customer, cart and promotion slots of two order states agree (the
declared fields of lines 50-52; only the dynamic attributes may differ). -/
def sameCore {P : Type} (o o' : Order P) : Prop :=
  o'.customer = o.customer ∧ o'.cart = o.cart ∧ o'.promotion = o.promotion

/-- The functional value each discounter computes, as proved below in
`applyPromo_spec`: it depends only on the customer and the cart. -/
def promoVal (pr : Promo) (c : Customer) (cart : List LineItem) : ℚ :=
  match pr with
  | .fidelity p => if 1000 ≤ c.fidelity then cartSum cart * p / 100 else 0
  | .bulkItem p =>
    ((cart.filter fun it => 20 ≤ it.quantity).map fun it =>
      it.total * p / 100).sum
  | .largeOrder p =>
    if 10 ≤ (cart.map LineItem.product).dedup.length then
      cartSum cart * p / 100
    else 0

/-- The functional value `Order.due` computes, as proved in `due_spec`. -/
def dueVal (o : Order Promo) : ℚ :=
  cartSum o.cart -
    (match o.promotion with
     | none => 0
     | some pr => promoVal pr o.customer o.cart)

lemma sameCore_refl {P : Type} (o : Order P) : sameCore o o :=
  ⟨rfl, rfl, rfl⟩

lemma sameCore_withTotal {P : Type} (o : Order P) : sameCore o o.withTotal :=
  ⟨rfl, rfl, rfl⟩

lemma sameCore_trans {P : Type} {o o' o'' : Order P}
    (h : sameCore o o') (h' : sameCore o' o'') : sameCore o o'' :=
  ⟨h'.1.trans h.1, h'.2.1.trans h.2.1, h'.2.2.trans h.2.2⟩

lemma goodAttrs_withTotal {P : Type} (o : Order P) (h : goodAttrs o) :
    goodAttrs o.withTotal := by
  simpa [Order.withTotal, List.lookup] using h

lemma totalCall_of_good {P : Type} (o : Order P) (h : goodAttrs o) :
    o.totalCall = some (cartSum o.cart, o.withTotal, true) := by
  unfold Order.totalCall
  rw [h]
  simp [Order.withTotal, List.lookup]

lemma bulk_foldl (p : ℚ) (cart : List LineItem) (a : ℚ) :
    cart.foldl
      (fun d it => if 20 ≤ it.quantity then d + it.total * p / 100 else d) a
    = a + ((cart.filter fun it => 20 ≤ it.quantity).map fun it =>
        it.total * p / 100).sum := by
  induction cart generalizing a with
  | nil => simp
  | cons hd tl ih =>
    by_cases h : 20 ≤ hd.quantity
    · simp [List.foldl_cons, List.filter_cons, h, ih]
      ring
    · simp [List.foldl_cons, List.filter_cons, h, ih]

lemma applyPromo_spec (pr : Promo) (o : Order Promo) (h : goodAttrs o) :
    ∃ o', applyPromo pr o = some (promoVal pr o.customer o.cart, o') ∧
      sameCore o o' ∧ goodAttrs o' := by
  cases pr with
  | fidelity p =>
    by_cases hf : 1000 ≤ o.customer.fidelity
    · exact ⟨o.withTotal, by
        simp [applyPromo, fidelityDiscounter, hf, totalCall_of_good o h,
          promoVal], sameCore_withTotal o, goodAttrs_withTotal o h⟩
    · exact ⟨o, by simp [applyPromo, fidelityDiscounter, hf, promoVal],
        sameCore_refl o, h⟩
  | bulkItem p =>
    refine ⟨o, ?_, sameCore_refl o, h⟩
    simp [applyPromo, bulkItemDiscounter, promoVal, bulk_foldl]
  | largeOrder p =>
    by_cases hl : 10 ≤ (o.cart.map LineItem.product).dedup.length
    · exact ⟨o.withTotal, by
        simp [applyPromo, largeOrderDiscounter, hl, totalCall_of_good o h,
          promoVal], sameCore_withTotal o, goodAttrs_withTotal o h⟩
    · exact ⟨o, by simp [applyPromo, largeOrderDiscounter, hl, promoVal],
        sameCore_refl o, h⟩

lemma due_spec (o : Order Promo) (h : goodAttrs o) :
    ∃ o', o.due applyPromo = some (dueVal o, o') ∧
      sameCore o o' ∧ goodAttrs o' := by
  cases hp : o.promotion with
  | none =>
    refine ⟨o.withTotal, ?_, sameCore_withTotal o, goodAttrs_withTotal o h⟩
    simp [Order.due, hp, totalCall_of_good o h, dueVal]
  | some pr =>
    obtain ⟨o₁, happ, hcore, hgood₁⟩ := applyPromo_spec pr o h
    refine ⟨o₁.withTotal, ?_, sameCore_trans hcore (sameCore_withTotal o₁),
      goodAttrs_withTotal o₁ hgood₁⟩
    simp [Order.due, hp, happ, totalCall_of_good o₁ hgood₁, dueVal,
      hcore.2.1]

lemma dueVal_congr {o o' : Order Promo} (h : sameCore o o') :
    dueVal o' = dueVal o := by
  obtain ⟨hc, hcart, hp⟩ := h
  simp [dueVal, hc, hcart, hp]

/-- The percentage a promotion was constructed with (the factory argument of
lines 71, 77, 88). -/
def Promo.percent : Promo → ℚ
  | .fidelity p => p
  | .bulkItem p => p
  | .largeOrder p => p

lemma cartSum_nonneg (cart : List LineItem)
    (h : ∀ it ∈ cart, 0 ≤ it.price ∧ 0 ≤ it.quantity) : 0 ≤ cartSum cart := by
  refine List.sum_nonneg ?_
  intro x hx
  obtain ⟨it, hit, rfl⟩ := List.mem_map.mp hx
  exact mul_nonneg (h it hit).1 (h it hit).2

lemma item_total_nonneg {it : LineItem} (h1 : 0 ≤ it.price)
    (h2 : 0 ≤ it.quantity) : 0 ≤ it.total :=
  mul_nonneg h1 h2

lemma frac_le_self {t p : ℚ} (ht : 0 ≤ t) (_hp : 0 ≤ p) (hp' : p ≤ 100) :
    t * p / 100 ≤ t := by nlinarith

lemma bulk_sum_bounds (p : ℚ) (hp : 0 ≤ p) (hp' : p ≤ 100) :
    ∀ cart : List LineItem, (∀ it ∈ cart, 0 ≤ it.price ∧ 0 ≤ it.quantity) →
      0 ≤ ((cart.filter fun it => 20 ≤ it.quantity).map fun it =>
        it.total * p / 100).sum ∧
      ((cart.filter fun it => 20 ≤ it.quantity).map fun it =>
        it.total * p / 100).sum ≤ cartSum cart := by
  intro cart
  induction cart with
  | nil => intro _; simp [cartSum]
  | cons hd tl ih =>
    intro hc
    have hhd := hc hd (List.mem_cons_self hd tl)
    have htl := ih fun it hit => hc it (List.mem_cons_of_mem hd hit)
    have h0 : 0 ≤ hd.total := item_total_nonneg hhd.1 hhd.2
    have hcs : cartSum (hd :: tl) = hd.total + cartSum tl := by
      simp [cartSum]
    have hfrac : 0 ≤ hd.total * p / 100 :=
      div_nonneg (mul_nonneg h0 hp) (by norm_num)
    by_cases h : 20 ≤ hd.quantity
    · rw [hcs]
      simp [List.filter_cons, h]
      exact ⟨add_nonneg hfrac htl.1,
        add_le_add (frac_le_self h0 hp hp') htl.2⟩
    · rw [hcs]
      simp [List.filter_cons, h]
      exact ⟨htl.1, le_trans htl.2 (by linarith)⟩

lemma promoVal_bounds (pr : Promo) (c : Customer) (cart : List LineItem)
    (hp : 0 ≤ pr.percent) (hp' : pr.percent ≤ 100)
    (hcart : ∀ it ∈ cart, 0 ≤ it.price ∧ 0 ≤ it.quantity) :
    0 ≤ promoVal pr c cart ∧ promoVal pr c cart ≤ cartSum cart := by
  have ht : 0 ≤ cartSum cart := cartSum_nonneg cart hcart
  cases pr with
  | fidelity p =>
    simp only [Promo.percent] at hp hp'
    by_cases hf : 1000 ≤ c.fidelity
    · simp only [promoVal, hf, if_true]
      exact ⟨div_nonneg (mul_nonneg ht hp) (by norm_num),
        frac_le_self ht hp hp'⟩
    · simp only [promoVal, hf, if_false]
      exact ⟨le_refl 0, ht⟩
  | bulkItem p =>
    simp only [Promo.percent] at hp hp'
    simpa only [promoVal] using bulk_sum_bounds p hp hp' cart hcart
  | largeOrder p =>
    simp only [Promo.percent] at hp hp'
    by_cases hl : 10 ≤ (cart.map LineItem.product).dedup.length
    · simp only [promoVal, hl, if_true]
      exact ⟨div_nonneg (mul_nonneg ht hp) (by norm_num),
        frac_le_self ht hp hp'⟩
    · simp only [promoVal, hl, if_false]
      exact ⟨le_refl 0, ht⟩

/-! ### Concrete data from the doctest of the module (lines 7-25) -/

/-- Embeds `joe`, the customer with fidelity 0 of doctest line 7. -/
def sampleJoe : Customer := ⟨"John Doe", 0⟩

/-- Embeds `ann`, the customer with fidelity 1100 of doctest line 8. -/
def sampleAnn : Customer := ⟨"Ann Smith", 1100⟩

/-- The three-item cart of lines 9-11. -/
def sampleCart : List LineItem :=
  [⟨"banana", 4, 0.5⟩, ⟨"apple", 10, 1.5⟩, ⟨"watermellon", 5, 5.0⟩]

/-- Embeds `banana_cart` of lines 16-17. -/
def sampleBananaCart : List LineItem :=
  [⟨"banana", 30, 0.5⟩, ⟨"apple", 10, 1.5⟩]

/-- An order with no promotion over the doctest cart. -/
def exNoneOrder : Order Promo := Order.init sampleJoe sampleCart none

/-- Embeds `Order(ann, cart, fidelity_promo(10))` (line 14). -/
def exAnnOrder : Order Promo :=
  Order.init sampleAnn sampleCart (some (Promo.fidelity 10))

/-- Embeds `Order(joe, banana_cart, bulk_item_promo(10))` (line 18). -/
def exBulkOrder : Order Promo :=
  Order.init sampleJoe sampleBananaCart (some (Promo.bulkItem 10))

/-! ### The claims -/

/-- C1: for every order, whatever promotion is attached, `total()`
returns the sum over the cart of `price * quantity`. -/
theorem total_eq_sum_price_mul_quantity (P : Type) (o : Order P)
    (h : goodAttrs o) :
    ∃ o' b, o.totalCall
      = some ((o.cart.map fun it => it.price * it.quantity).sum, o', b) :=
  ⟨o.withTotal, true, totalCall_of_good o h⟩

theorem total_eq_sum_price_mul_quantity_witness :
    goodAttrs exNoneOrder ∧
    ∃ o' b, exNoneOrder.totalCall
      = some ((exNoneOrder.cart.map fun it =>
          it.price * it.quantity).sum, o', b) :=
  ⟨rfl, total_eq_sum_price_mul_quantity Promo exNoneOrder rfl⟩

/-- C2: the function `due()` returns `total()` minus the discount obtained by calling
the attached promotion on the order itself, and returns `total()` unchanged
when no promotion is attached. -/
theorem due_subtracts_promotion_discount (o : Order Promo)
    (h : goodAttrs o) :
    ∃ t o₁ b, o.totalCall = some (t, o₁, b) ∧
    ∃ v o₂, o.due applyPromo = some (v, o₂) ∧
      (o.promotion = none → v = t) ∧
      (∀ pr, o.promotion = some pr →
        ∃ d o₃, applyPromo pr o = some (d, o₃) ∧ v = t - d) := by
  refine ⟨cartSum o.cart, o.withTotal, true, totalCall_of_good o h, ?_⟩
  obtain ⟨o', hdue, _, _⟩ := due_spec o h
  refine ⟨dueVal o, o', hdue, fun hn => by simp [dueVal, hn], ?_⟩
  intro pr hpr
  obtain ⟨o₃, happ, _, _⟩ := applyPromo_spec pr o h
  exact ⟨promoVal pr o.customer o.cart, o₃, happ, by simp [dueVal, hpr]⟩

theorem due_subtracts_promotion_discount_witness :
    goodAttrs exAnnOrder ∧
    (∃ t o₁ b, exAnnOrder.totalCall = some (t, o₁, b) ∧
     ∃ v o₂, exAnnOrder.due applyPromo = some (v, o₂) ∧
       (exAnnOrder.promotion = none → v = t) ∧
       (∀ pr, exAnnOrder.promotion = some pr →
         ∃ d o₃, applyPromo pr exAnnOrder = some (d, o₃) ∧ v = t - d)) :=
  ⟨rfl, due_subtracts_promotion_discount exAnnOrder rfl⟩

/-- C3: the discounter returned by `fidelity_promo(p)` gives
`total() * p / 100` when the fidelity of the customer is at least the fixed
constant 1000, and 0 otherwise. -/
theorem fidelity_promo_spec (P : Type) (p : ℚ) (o : Order P)
    (h : goodAttrs o) :
    ∃ t o₁ b, o.totalCall = some (t, o₁, b) ∧
    ∃ o', fidelityDiscounter p o
      = some (if 1000 ≤ o.customer.fidelity then t * p / 100 else 0, o') := by
  refine ⟨cartSum o.cart, o.withTotal, true, totalCall_of_good o h, ?_⟩
  by_cases hf : 1000 ≤ o.customer.fidelity
  · exact ⟨o.withTotal,
      by simp [fidelityDiscounter, hf, totalCall_of_good o h]⟩
  · exact ⟨o, by simp [fidelityDiscounter, hf]⟩

theorem fidelity_promo_spec_witness :
    goodAttrs exAnnOrder ∧
    (∃ t o₁ b, exAnnOrder.totalCall = some (t, o₁, b) ∧
     ∃ o', fidelityDiscounter 10 exAnnOrder
       = some (if 1000 ≤ exAnnOrder.customer.fidelity
           then t * 10 / 100 else 0, o')) :=
  ⟨rfl, fidelity_promo_spec Promo 10 exAnnOrder rfl⟩

/-- C4: the discounter returned by `bulk_item_promo(p)` gives the sum,
over exactly the line items with quantity at least 20, of
`item.total() * p / 100`; items below the threshold contribute nothing. -/
theorem bulk_item_promo_spec (P : Type) (p : ℚ) (o : Order P) :
    bulkItemDiscounter p o
      = some (((o.cart.filter fun it => 20 ≤ it.quantity).map fun it =>
          it.total * p / 100).sum, o) := by
  simp [bulkItemDiscounter, bulk_foldl]

/-- C5: the discounter returned by `large_order_promo(p)` gives
`total() * p / 100` when the cart holds at least 10 distinct product
identifiers (deduplicated by identifier, regardless of quantities), and 0
otherwise. -/
theorem large_order_promo_spec (P : Type) (p : ℚ) (o : Order P)
    (h : goodAttrs o) :
    ∃ t o₁ b, o.totalCall = some (t, o₁, b) ∧
    ∃ o', largeOrderDiscounter p o
      = some (if 10 ≤ (o.cart.map LineItem.product).toFinset.card
          then t * p / 100 else 0, o') := by
  simp only [List.card_toFinset]
  refine ⟨cartSum o.cart, o.withTotal, true, totalCall_of_good o h, ?_⟩
  by_cases hl : 10 ≤ (o.cart.map LineItem.product).dedup.length
  · exact ⟨o.withTotal,
      by simp [largeOrderDiscounter, hl, totalCall_of_good o h]⟩
  · exact ⟨o, by simp [largeOrderDiscounter, hl]⟩

theorem large_order_promo_spec_witness :
    goodAttrs exNoneOrder ∧
    (∃ t o₁ b, exNoneOrder.totalCall = some (t, o₁, b) ∧
     ∃ o', largeOrderDiscounter 7 exNoneOrder
       = some (if 10 ≤ (exNoneOrder.cart.map LineItem.product).toFinset.card
           then t * 7 / 100 else 0, o')) :=
  ⟨rfl, large_order_promo_spec Promo 7 exNoneOrder rfl⟩

/-- A fidelity order whose promotion was built with percentage 200. -/
def exGreedyOrder : Order Promo :=
  Order.init sampleAnn [⟨"thing", 1, 1⟩] (some (Promo.fidelity 200))

/-- C6 fails as stated: nothing restricts the percentage a strategy is
built with, and `fidelity_promo(200)` on a qualifying customer returns a
discount of twice the total. -/
theorem promo_discount_bounded_cex :
    exGreedyOrder.totalCall.map (fun x => x.1) = some 1 ∧
    (applyPromo (Promo.fidelity 200) exGreedyOrder).map Prod.fst = some 2 ∧
    ¬ ((2 : ℚ) ≤ 1) := by
  have hg : goodAttrs exGreedyOrder := rfl
  have ht := totalCall_of_good exGreedyOrder hg
  have h1 : cartSum exGreedyOrder.cart = 1 := by
    norm_num [exGreedyOrder, Order.init, cartSum, LineItem.total]
  refine ⟨?_, ?_, by norm_num⟩
  · rw [ht]
    simp [h1]
  · have happ : applyPromo (Promo.fidelity 200) exGreedyOrder
        = exGreedyOrder.totalCall.map (fun x => (x.1 * 200 / 100, x.2.1)) := by
      simp [applyPromo, fidelityDiscounter, exGreedyOrder, Order.init,
        sampleAnn]
    rw [happ, ht]
    simp [h1]
    norm_num

/-- C6 amended: when the percentage lies between 0 and 100 and every
cart item has non-negative price and quantity, each of the three strategies
computes a discount `d` with `0 <= d <= total()`, and hence
`due() <= total()`. -/
theorem promo_discount_bounded (o : Order Promo) (pr : Promo)
    (hpr : o.promotion = some pr) (h : goodAttrs o)
    (hp : 0 ≤ pr.percent) (hp' : pr.percent ≤ 100)
    (hcart : ∀ it ∈ o.cart, 0 ≤ it.price ∧ 0 ≤ it.quantity) :
    ∃ t o₁ b, o.totalCall = some (t, o₁, b) ∧
    ∃ d o₂, applyPromo pr o = some (d, o₂) ∧ 0 ≤ d ∧ d ≤ t ∧
    ∃ v o₃, o.due applyPromo = some (v, o₃) ∧ v ≤ t := by
  refine ⟨cartSum o.cart, o.withTotal, true, totalCall_of_good o h, ?_⟩
  obtain ⟨o₂, happ, _, _⟩ := applyPromo_spec pr o h
  obtain ⟨hd0, hd1⟩ := promoVal_bounds pr o.customer o.cart hp hp' hcart
  refine ⟨promoVal pr o.customer o.cart, o₂, happ, hd0, hd1, ?_⟩
  obtain ⟨o₃, hdue, _, _⟩ := due_spec o h
  refine ⟨dueVal o, o₃, hdue, ?_⟩
  simp only [dueVal, hpr]
  linarith

theorem promo_discount_bounded_witness :
    (exBulkOrder.promotion = some (Promo.bulkItem 10) ∧
     goodAttrs exBulkOrder ∧
     0 ≤ (Promo.bulkItem 10).percent ∧ (Promo.bulkItem 10).percent ≤ 100 ∧
     ∀ it ∈ exBulkOrder.cart, 0 ≤ it.price ∧ 0 ≤ it.quantity) ∧
    (∃ t o₁ b, exBulkOrder.totalCall = some (t, o₁, b) ∧
     ∃ d o₂, applyPromo (Promo.bulkItem 10) exBulkOrder = some (d, o₂) ∧
       0 ≤ d ∧ d ≤ t ∧
     ∃ v o₃, exBulkOrder.due applyPromo = some (v, o₃) ∧ v ≤ t) := by
  have hc : ∀ it ∈ exBulkOrder.cart, 0 ≤ it.price ∧ 0 ≤ it.quantity := by
    intro it hit
    simp only [exBulkOrder, Order.init, sampleBananaCart, List.mem_cons,
      List.mem_singleton, List.not_mem_nil, or_false] at hit
    rcases hit with rfl | rfl
    · exact ⟨by norm_num, by norm_num⟩
    · exact ⟨by norm_num, by norm_num⟩
  refine ⟨⟨rfl, rfl, by norm_num [Promo.percent], by norm_num [Promo.percent],
    hc⟩, ?_⟩
  exact promo_discount_bounded exBulkOrder (Promo.bulkItem 10) rfl rfl
    (by norm_num [Promo.percent]) (by norm_num [Promo.percent]) hc

/-- C7: the claim says the cart sum is computed once and cached, but the
guard `hasattr(self, "__total")` tests the literal name `__total` while the
assignment of line 56 writes the mangled name `_Order__total`, so the guard
never passes: on the doctest order the first call recomputes the sum (third
component `true`), leaves `_Order__total` set but `__total` absent, and the
second call recomputes it again. -/
theorem total_recomputed_on_every_call :
    ∃ o₁ : Order Promo,
      (Order.init sampleJoe sampleCart none).totalCall = some (42, o₁, true) ∧
      o₁.attrs.lookup "_Order__total" = some 42 ∧
      o₁.attrs.lookup "__total" = none ∧
      ∃ o₂, o₁.totalCall = some (42, o₂, true) := by
  have h42 : cartSum sampleCart = 42 := by
    norm_num [cartSum, sampleCart, LineItem.total]
  have hg : goodAttrs (Order.init sampleJoe sampleCart
      (none : Option Promo)) := rfl
  have h42a : cartSum (Order.init sampleJoe sampleCart
      (none : Option Promo)).cart = 42 := h42
  have h42b : cartSum ((Order.init sampleJoe sampleCart
      (none : Option Promo)).withTotal).cart = 42 := h42
  refine ⟨(Order.init sampleJoe sampleCart none).withTotal, ?_, ?_, ?_,
    ((Order.init sampleJoe sampleCart none).withTotal).withTotal, ?_⟩
  · rw [totalCall_of_good _ hg, h42a]
  · simp [Order.withTotal, Order.init, List.lookup, h42]
  · simp [Order.withTotal, Order.init, List.lookup]
  · rw [totalCall_of_good _ (goodAttrs_withTotal _ hg), h42b]

/-- C8: on any well-formed order (any of the three strategies attached,
or none) repeated calls of `total()` return the same value, and repeated
calls of `due()` return the same value. -/
theorem total_and_due_idempotent (o : Order Promo) (h : goodAttrs o) :
    (∃ t o₁ b₁, o.totalCall = some (t, o₁, b₁) ∧
      ∃ o₂ b₂, o₁.totalCall = some (t, o₂, b₂)) ∧
    (∃ v o₃, o.due applyPromo = some (v, o₃) ∧
      ∃ o₄, o₃.due applyPromo = some (v, o₄)) := by
  constructor
  · refine ⟨cartSum o.cart, o.withTotal, true, totalCall_of_good o h,
      o.withTotal.withTotal, true, ?_⟩
    rw [totalCall_of_good _ (goodAttrs_withTotal o h)]
    rfl
  · obtain ⟨o₃, hdue, hcore, hg⟩ := due_spec o h
    obtain ⟨o₄, hdue₂, _, _⟩ := due_spec o₃ hg
    exact ⟨dueVal o, o₃, hdue, o₄, by rw [hdue₂, dueVal_congr hcore]⟩

theorem total_and_due_idempotent_witness :
    goodAttrs exBulkOrder ∧
    ((∃ t o₁ b₁, exBulkOrder.totalCall = some (t, o₁, b₁) ∧
       ∃ o₂ b₂, o₁.totalCall = some (t, o₂, b₂)) ∧
     (∃ v o₃, exBulkOrder.due applyPromo = some (v, o₃) ∧
       ∃ o₄, o₃.due applyPromo = some (v, o₄))) :=
  ⟨rfl, total_and_due_idempotent exBulkOrder rfl⟩

/-- C10: with an empty cart, `total()` is 0 and `due()` is 0 for every
customer and for every promotion among none and the three strategies. -/
theorem empty_cart_total_and_due_zero (c : Customer) (po : Option Promo) :
    ∃ o₁, (Order.init c [] po).totalCall = some (0, o₁, true) ∧
    ∃ o₂, (Order.init c [] po).due applyPromo = some (0, o₂) := by
  have h : goodAttrs (Order.init c [] po) := rfl
  have h0 : cartSum (Order.init c [] po).cart = 0 := rfl
  refine ⟨(Order.init c [] po).withTotal, ?_, ?_⟩
  · rw [totalCall_of_good _ h, h0]
  · obtain ⟨o₂, hdue, _, _⟩ := due_spec (Order.init c [] po) h
    have hz : dueVal (Order.init c [] po) = 0 := by
      cases po with
      | none => simp [dueVal, Order.init, cartSum]
      | some pr =>
        cases pr <;> simp [dueVal, Order.init, cartSum, promoVal]
    exact ⟨o₂, by rw [hdue, hz]⟩

/-! ### Heap-level view of `__init__` for the cart-copy invariant

Python lists are mutable objects; to state what `self.cart = list(cart)`
(line 51) protects against, list objects are modelled as references into a
store of list contents.  `list(cart)` allocates a fresh list object holding
a copy of the current contents of the source list. -/

/-- A store of Python list objects, addressed by allocation index. -/
structure ListStore where
  lists : List (List LineItem)

/-- Current contents of the list object at reference `r`. -/
def ListStore.read (s : ListStore) (r : ℕ) : List LineItem :=
  s.lists.getD r []

/-- In-place mutation of the list object at reference `r` (this covers any
append, removal or rewrite of the source sequence). -/
def ListStore.write (s : ListStore) (r : ℕ) (l : List LineItem) : ListStore :=
  ⟨s.lists.set r l⟩

/-- Allocation of a fresh list object with contents `l`. -/
def ListStore.alloc (s : ListStore) (l : List LineItem) : ListStore × ℕ :=
  (⟨s.lists ++ [l]⟩, s.lists.length)

/-- An order whose cart slot is a reference to a list object, as in Python. -/
structure OrderH (P : Type) where
  customer : Customer
  cartRef : ℕ
  promotion : Option P
  attrs : List (String × ℚ)

/-- Embeds `Order.__init__` (lines 49-52) at heap level: `self.cart = list(cart)`
reads the current contents of the source list and allocates a fresh list object
holding that copy; the order keeps only the fresh reference. -/
def OrderH.init {P : Type} (customer : Customer) (s : ListStore) (src : ℕ)
    (promotion : Option P) : ListStore × OrderH P :=
  let a := s.alloc (s.read src)
  (a.1, ⟨customer, a.2, promotion, []⟩)

/-- The order as a value, with the cart contents its reference currently
holds in the store. -/
def OrderH.deref {P : Type} (s : ListStore) (o : OrderH P) : Order P :=
  ⟨o.customer, s.read o.cartRef, o.promotion, o.attrs⟩

/-- C9: the cart is copied at construction; overwriting the source list
after construction leaves the order (hence its cart, `total()` and `due()`)
exactly as it was, and the cart remains the contents of the source at
construction time. -/
theorem cart_copied_on_init (P : Type) (c : Customer) (p : Option P)
    (s : ListStore) (src : ℕ) (hsrc : src < s.lists.length)
    (l' : List LineItem) :
    ((OrderH.init c s src p).2.deref
        (((OrderH.init c s src p).1).write src l'))
      = ((OrderH.init c s src p).2.deref (OrderH.init c s src p).1) ∧
    ((OrderH.init c s src p).2.deref
        (((OrderH.init c s src p).1).write src l')).cart = s.read src ∧
    ((OrderH.init c s src p).2.deref
        (((OrderH.init c s src p).1).write src l')).totalCall
      = ((OrderH.init c s src p).2.deref (OrderH.init c s src p).1).totalCall ∧
    ∀ interp, ((OrderH.init c s src p).2.deref
        (((OrderH.init c s src p).1).write src l')).due interp
      = ((OrderH.init c s src p).2.deref
          (OrderH.init c s src p).1).due interp := by
  have hne : src ≠ s.lists.length := Nat.ne_of_lt hsrc
  have hread : (((OrderH.init c s src p).1).write src l').read
      (OrderH.init c s src p).2.cartRef
      = ((OrderH.init c s src p).1).read (OrderH.init c s src p).2.cartRef := by
    simp only [OrderH.init, ListStore.alloc, ListStore.write, ListStore.read,
      List.getD_eq_getElem?_getD, List.getElem?_set_ne hne]
  have horig : ((OrderH.init c s src p).1).read
      (OrderH.init c s src p).2.cartRef = s.read src := by
    simp only [OrderH.init, ListStore.alloc, ListStore.read,
      List.getD_eq_getElem?_getD, List.getElem?_concat_length,
      Option.getD_some]
  have hderef : ((OrderH.init c s src p).2.deref
      (((OrderH.init c s src p).1).write src l'))
      = ((OrderH.init c s src p).2.deref (OrderH.init c s src p).1) := by
    simp only [OrderH.deref, hread]
  refine ⟨hderef, ?_, by rw [hderef], fun interp => by rw [hderef]⟩
  simp only [OrderH.deref, hread, horig]

theorem cart_copied_on_init_witness :
    0 < (ListStore.mk [sampleCart]).lists.length ∧
    (((OrderH.init sampleJoe (ListStore.mk [sampleCart]) 0
        (none : Option Promo)).2.deref
        (((OrderH.init sampleJoe (ListStore.mk [sampleCart]) 0
          (none : Option Promo)).1).write 0 []))
      = ((OrderH.init sampleJoe (ListStore.mk [sampleCart]) 0
          (none : Option Promo)).2.deref
          (OrderH.init sampleJoe (ListStore.mk [sampleCart]) 0
            (none : Option Promo)).1) ∧
    ((OrderH.init sampleJoe (ListStore.mk [sampleCart]) 0
        (none : Option Promo)).2.deref
        (((OrderH.init sampleJoe (ListStore.mk [sampleCart]) 0
          (none : Option Promo)).1).write 0 [])).cart
      = (ListStore.mk [sampleCart]).read 0 ∧
    ((OrderH.init sampleJoe (ListStore.mk [sampleCart]) 0
        (none : Option Promo)).2.deref
        (((OrderH.init sampleJoe (ListStore.mk [sampleCart]) 0
          (none : Option Promo)).1).write 0 [])).totalCall
      = ((OrderH.init sampleJoe (ListStore.mk [sampleCart]) 0
          (none : Option Promo)).2.deref
          (OrderH.init sampleJoe (ListStore.mk [sampleCart]) 0
            (none : Option Promo)).1).totalCall ∧
    ∀ interp, ((OrderH.init sampleJoe (ListStore.mk [sampleCart]) 0
        (none : Option Promo)).2.deref
        (((OrderH.init sampleJoe (ListStore.mk [sampleCart]) 0
          (none : Option Promo)).1).write 0 [])).due interp
      = ((OrderH.init sampleJoe (ListStore.mk [sampleCart]) 0
          (none : Option Promo)).2.deref
          (OrderH.init sampleJoe (ListStore.mk [sampleCart]) 0
            (none : Option Promo)).1).due interp) :=
  ⟨by decide, cart_copied_on_init Promo sampleJoe none
    (ListStore.mk [sampleCart]) 0 (by decide) []⟩
